import Mathlib

/-
Verification of the rank-reordering utility (`prioritize-features.py` and
`utils/jira.py`) against its specification.

The tracker backend is modelled explicitly: the set of unresolved tickets of
one project/issue-type universe is a list `world : List Issue`, kept in the
tracker's rank-ascending order (head = highest-ranked ticket).  Search queries
become pure functions over that list, `sys.exit(1)` becomes `Except.error`,
and the JIRA rank API becomes an explicit list reordering.  Calls that can
raise are given an attempt oracle `Nat → Outcome α` describing what the
backend does on each successive attempt.
-/

namespace Prioritize

/-- Tier name "Undefined". -/
def tUndefined : String := "Undefined"

/-- Tier name "Minor". -/
def tMinor : String := "Minor"

/-- Tier name "Normal". -/
def tNormal : String := "Normal"

/-- Tier name "Major". -/
def tMajor : String := "Major"

/-- Tier name "Critical". -/
def tCritical : String := "Critical"

/-- Tier name "Blocker". -/
def tBlocker : String := "Blocker"

/-- The fixed, ordered priority-tier list `PRIORITY` of `prioritize-features.py`
(lowest tier first). -/
def PRIORITY : List String := [tUndefined, tMinor, tNormal, tMajor, tCritical, tBlocker]

/-- A tracker ticket, with the attributes the script reads: its key, the name
of its priority field (`issue.fields.priority.name`), its "Parent Link" value,
its project and its issue type. -/
structure Issue where
  key : String
  priority : String
  parent : String
  project : String
  itype : String
  deriving DecidableEq

/-- Position of a priority name in the fixed tier order (names outside the
list get index 6, above every real tier). -/
def tierIndex (p : String) : Nat := List.indexOf p PRIORITY

/-- The tracker's `priority<=tier` comparison, using the fixed tier order. -/
def prioLE (p tier : String) : Bool := decide (tierIndex p ≤ tierIndex tier)

/-- Backend semantics of the query
`priority<=tier AND project=proj AND type=ty ORDER BY Rank ASC` with
`maxResults=1`: the first ticket in rank order whose priority is at or below
`tier`, in that project and type. -/
def topAtOrBelow (world : List Issue) (proj ty tier : String) : Option Issue :=
  world.find? (fun t => prioLE t.priority tier && t.project == proj && t.itype == ty)

/-- `get_issues` of `prioritize-features.py`, backend part: the query
`"Parent Link"=parent AND project=proj AND type=ty ORDER BY Rank DESC`
returns the children bottom-ranked first (the reverse of rank-ascending
order). -/
def get_issues (world : List Issue) (parent proj ty : String) : List Issue :=
  (world.filter (fun t => t.parent == parent && t.project == proj && t.itype == ty)).reverse

/-- `get_highest_ranked_issues` of `prioritize-features.py`, generalized over
the tier list it iterates: for each tier it runs the `priority<=tier` query
with `maxResults=1`; an empty result is `sys.exit(1)` (`Except.error`) and no
further tiers are queried.  The first component records the tiers actually
queried, in order. -/
def get_highest_ranked_issues (world : List Issue) (proj ty : String) :
    List String → List String × Except Unit (List (String × Issue))
  | [] => ([], Except.ok [])
  | p :: ps =>
    match topAtOrBelow world proj ty p with
    | none => ([p], Except.error ())
    | some t =>
      match get_highest_ranked_issues world proj ty ps with
      | (qs, Except.error e) => (p :: qs, Except.error e)
      | (qs, Except.ok m) => (p :: qs, Except.ok ((p, t) :: m))

/-- A search query issued against the tracker: either the children query of
`get_issues` or one tier's `priority<=tier` query of
`get_highest_ranked_issues`. -/
inductive JQuery where
  | childrenQ (parent proj ty : String)
  | topQ (tier proj ty : String)
  deriving DecidableEq

/-- The query stage of `process_type`: first the children query (exiting when
it returns nothing), then the per-tier anchor queries.  Returns the queries
issued in order, and either `Except.error` (the process exited with status 1)
or the children list together with the tier-to-top-ticket map. -/
def processQueries (world : List Issue) (parent proj ty : String) :
    List JQuery × Except Unit (List Issue × List (String × Issue)) :=
  let cs := get_issues world parent proj ty
  if cs.isEmpty then ([JQuery.childrenQ parent proj ty], Except.error ())
  else
    match get_highest_ranked_issues world proj ty PRIORITY with
    | (qs, Except.error e) =>
      (JQuery.childrenQ parent proj ty :: qs.map (fun q => JQuery.topQ q proj ty), Except.error e)
    | (qs, Except.ok m) =>
      (JQuery.childrenQ parent proj ty :: qs.map (fun q => JQuery.topQ q proj ty),
        Except.ok (cs, m))

/-- Python dict lookup `top_issues[priority]` on the tier map (assoc list,
first binding wins); `none` is a `KeyError`. -/
def lookupTier : List (String × Issue) → String → Option Issue
  | [], _ => none
  | kv :: m, p => if kv.1 = p then some kv.2 else lookupTier m p

/-- Python dict assignment `top_issues[priority] = issue` for a key that is
already present (the only way `check_rank` uses it): replace the binding,
keeping the key set unchanged. -/
def setTier : List (String × Issue) → String → Issue → List (String × Issue)
  | [], _, _ => []
  | kv :: m, p, x => if kv.1 = p then (kv.1, x) :: setTier m p x else kv :: setTier m p x

/-- `check_rank` of `prioritize-features.py`: look the child's priority name
up in the tier map (a missing key raises `KeyError`, before anything is logged
or moved), remember the anchor, point the map at the child, record the log
line, and — unless `DRY_RUN` — record the `jira_client.rank(issue.key,
next_issue=top_issue.key)` call.  Returns the updated map, the log line
appended to `context["updates"]`, and the rank API calls made. -/
def check_rank (dry : Bool) (issue : Issue) (m : List (String × Issue)) :
    Except String (List (String × Issue) × String × List (String × String)) :=
  match lookupTier m issue.priority with
  | none => Except.error issue.priority
  | some top =>
    Except.ok (setTier m issue.priority issue,
      "  > Issue rank of " ++ issue.key ++ "(" ++ issue.priority ++ ") moved above " ++ top.key,
      if dry then [] else [(issue.key, top.key)])

/-- Outcome of running the per-child loop of `process_type`: the final tier
map (or the priority name whose lookup raised `KeyError`), the log lines
printed by `add_comment` for the children processed before any error, and the
rank API calls made for them. -/
structure RunResult where
  tierMap : Except String (List (String × Issue))
  logs : List String
  calls : List (String × String)

/-- The per-child loop of `process_type`: `check_rank` on each child in
order; an uncaught `KeyError` ends the run, keeping the earlier children's
log lines and rank calls. -/
def runChildren (dry : Bool) : List (String × Issue) → List Issue → RunResult
  | m, [] => ⟨Except.ok m, [], []⟩
  | m, c :: cs =>
    match check_rank dry c m with
    | Except.error e => ⟨Except.error e, [], []⟩
    | Except.ok (m2, line, calls) =>
      let r := runChildren dry m2 cs
      ⟨r.tierMap, line :: r.logs, calls ++ r.calls⟩

/-- `process_type` of `prioritize-features.py` for one issue type: the query
stage followed by the per-child loop (`none` when a query already exited the
process). -/
def process_type (dry : Bool) (world : List Issue) (parent proj ty : String) :
    List JQuery × Option RunResult :=
  match processQueries world parent proj ty with
  | (qs, Except.error _) => (qs, none)
  | (qs, Except.ok (cs, m)) => (qs, some (runChildren dry m cs))

/-- The most recently processed child whose priority is `T` (spec-side helper
for the tier-map invariant). -/
def lastWithTier (T : String) : List Issue → Option Issue
  | [] => none
  | c :: cs => Option.or (lastWithTier T cs) (if c.priority = T then some c else none)

/-- Remove the ticket with the given key from the rank order. -/
def removeKey (k : String) (w : List Issue) : List Issue :=
  w.filter (fun t => t.key != k)

/-- Insert `c` immediately before the ticket whose key is `tgt`; `none` when
no such ticket exists. -/
def insertBefore (tgt : String) (c : Issue) : List Issue → Option (List Issue)
  | [] => none
  | t :: ts =>
    if t.key = tgt then some (c :: t :: ts)
    else Option.map (fun l => t :: l) (insertBefore tgt c ts)

/-- Model of the tracker's `rank(issue, next_issue=tgt)` API on the global
rank order: take the ticket out and reinsert it immediately above `tgt`.
When the ticket or the target is absent — including a ticket being ranked
above itself — the order is modelled as unchanged. -/
def rankMove (w : List Issue) (k tgt : String) : List Issue :=
  match w.find? (fun t => t.key == k) with
  | none => w
  | some c =>
    match insertBefore tgt c (removeKey k w) with
    | some w2 => w2
    | none => w

/-- The per-child loop with the rank API's effect on the global order made
explicit: each non-dry `check_rank` both updates the tier map and reorders
the world.  Returns the final order and the rank calls, or `none` on a
`KeyError`. -/
def runWorld : List Issue → List (String × Issue) → List Issue →
    Option (List Issue × List (String × String))
  | w, _, [] => some (w, [])
  | w, m, c :: cs =>
    match lookupTier m c.priority with
    | none => none
    | some top =>
      match runWorld (rankMove w c.key top.key) (setTier m c.priority c) cs with
      | none => none
      | some (wF, calls) => some (wF, (c.key, top.key) :: calls)

/-- One full non-dry run of the tool against a tracker state: fetch children
and per-tier anchors, then reorder.  `none` when a query exits the process or
a priority lookup fails. -/
def runOnce (world : List Issue) (parent proj ty : String) :
    Option (List Issue × List (String × String)) :=
  let cs := get_issues world parent proj ty
  if cs.isEmpty then none
  else
    match get_highest_ranked_issues world proj ty PRIORITY with
    | (_, Except.error _) => none
    | (_, Except.ok m) => runWorld world m cs

/-- Parent key used by the worked example. -/
def pPar : String := "PAR"

/-- Project id used by the worked example. -/
def pProj : String := "PROJ"

/-- Issue type used by the worked example. -/
def tFeat : String := "Feature"

/-- Pre-existing Blocker anchor ticket X of the worked example. -/
def iX : Issue := ⟨"X", tBlocker, "", pProj, tFeat⟩

/-- Pre-existing Major anchor ticket Y of the worked example. -/
def iY : Issue := ⟨"Y", tMajor, "", pProj, tFeat⟩

/-- Child F1 (Blocker) of the worked example. -/
def iF1 : Issue := ⟨"F1", tBlocker, pPar, pProj, tFeat⟩

/-- Child F2 (Major) of the worked example. -/
def iF2 : Issue := ⟨"F2", tMajor, pPar, pProj, tFeat⟩

/-- Child F3 (Blocker) of the worked example. -/
def iF3 : Issue := ⟨"F3", tBlocker, pPar, pProj, tFeat⟩

/-- A bottom-ranked Undefined ticket, so that every tier's anchor query has a
result. -/
def iU : Issue := ⟨"U", tUndefined, "", pProj, tFeat⟩

/-- Worked-example tracker state, rank-ascending (highest ranked first): the
children F3, F2, F1 sit below the anchors X and Y, so `get_issues` returns
them as [F1, F2, F3]. -/
def exWorld : List Issue := [iX, iY, iF3, iF2, iF1, iU]

/-- The rank order after one run of the tool on `exWorld`. -/
def exWorld1 : List Issue := [iF3, iF1, iX, iF2, iY, iU]

/-- The worked example's initial anchor map {Blocker: X, Major: Y}. -/
def m0ex : List (String × Issue) := [(tBlocker, iX), (tMajor, iY)]

/-- The full anchor map `get_highest_ranked_issues` builds on `exWorld`. -/
def m0full : List (String × Issue) :=
  [(tUndefined, iU), (tMinor, iU), (tNormal, iU), (tMajor, iY), (tCritical, iY), (tBlocker, iX)]

/-- What one attempt of a call to the tracker does: return a value, raise the
tracker's transient error `jira.exceptions.JIRAError`, or raise some other
exception. -/
inductive Outcome (α : Type) where
  | ok (v : α)
  | transient
  | fatal
  deriving DecidableEq

/-- An exception escaping a call: the tracker's `JIRAError`, or any other
exception. -/
inductive PyErr where
  | jiraError
  | other
  deriving DecidableEq

/-- The retry loop of `get_parent` in `utils/jira.py`:
`for _ in range(0, 5): try: return jira_client.issue(parent_key) except
JIRAError: pass`, falling through to `return None`.  `fuel` is the number of
loop iterations left and `n` the index of the next attempt; only `JIRAError`
is caught, any other exception propagates. -/
def retryFetch {α : Type} (att : Nat → Outcome α) : Nat → Nat → Except PyErr (Option α)
  | 0, _ => Except.ok none
  | fuel + 1, n =>
    match att n with
    | Outcome.ok v => Except.ok (some v)
    | Outcome.transient => retryFetch att fuel (n + 1)
    | Outcome.fatal => Except.error PyErr.other

/-- The raw data of a tracker issue object, as far as the script touches it:
its optional `"Context"` entry (a dict, here a list of key/value pairs). -/
structure Raw where
  context : Option (List (String × String))
  deriving DecidableEq

/-- A tracker issue object as `utils/jira.py` mutates it: key, raw data, and
the fields that have been applied server-side by `issue.update`. -/
structure JIssue where
  key : String
  raw : Raw
  applied : List (String × String)
  deriving DecidableEq

/-- `get_parent` of `utils/jira.py` with the field-id and parent-key reads
already performed: when the Parent Link field id is empty (falsy) or the
parent key is absent, return `None` without touching the tracker; otherwise
fetch the parent ticket under the 5-attempt retry loop. -/
def get_parent (parentLinkFieldId : String) (parentKey : Option String)
    (att : Nat → Outcome JIssue) : Except PyErr (Option JIssue) :=
  if parentLinkFieldId = "" then Except.ok none
  else
    match parentKey with
    | none => Except.ok none
    | some _ => retryFetch att 5 0

/-- Effect of a successful `issue.update(**data)` call: the fields are
applied server-side and the issue's raw data is replaced by fresh server
data, which deletes the attached `"Context"` entry (the code's own comment:
"Restore the context that was deleted by the update"). -/
def tryUpdate (i : JIssue) (data : List (String × String)) : JIssue :=
  ⟨i.key, ⟨none⟩, i.applied ++ data⟩

/-- The retry loop of `update` in `utils/jira.py`: up to `fuel` attempts of
`issue.update(**data)`, breaking on success, catching only `JIRAError`;
exhaustion leaves the issue unchanged. -/
def updateLoop (i : JIssue) (data : List (String × String)) (att : Nat → Outcome Unit) :
    Nat → Nat → Except PyErr JIssue
  | 0, _ => Except.ok i
  | fuel + 1, n =>
    match att n with
    | Outcome.ok _ => Except.ok (tryUpdate i data)
    | Outcome.transient => updateLoop i data att fuel (n + 1)
    | Outcome.fatal => Except.error PyErr.other

/-- `update` of `utils/jira.py`: save `issue.raw.get("Context")`, run the
5-attempt retry loop around `issue.update(**data)`, then restore the saved
context — but only when it is truthy (`if issue_context:`), i.e. present and
nonempty. -/
def update (i : JIssue) (data : List (String × String)) (att : Nat → Outcome Unit) :
    Except PyErr JIssue :=
  match updateLoop i data att 5 0 with
  | Except.error e => Except.error e
  | Except.ok j =>
    match i.raw.context with
    | none => Except.ok j
    | some c => if c = [] then Except.ok j else Except.ok ⟨j.key, ⟨some c⟩, j.applied⟩

/-- `refresh` of `utils/jira.py`: `update(issue, {})`. -/
def refresh (i : JIssue) (att : Nat → Outcome Unit) : Except PyErr JIssue :=
  update i [] att

/-- The backend call of `get_issues` as the code performs it: a single
`jira_client.search_issues` invocation with no surrounding try/except, so an
error raised on the first attempt propagates. -/
def get_issues_call (att : Nat → Outcome (List Issue)) : Except PyErr (List Issue) :=
  match att 0 with
  | Outcome.ok v => Except.ok v
  | Outcome.transient => Except.error PyErr.jiraError
  | Outcome.fatal => Except.error PyErr.other

/-- A search-attempt oracle that fails transiently once, then succeeds. -/
def att3 : Nat → Outcome (List Issue) :=
  fun n => if n = 0 then Outcome.transient else Outcome.ok [iX]

/-- The parent ticket returned by successful fetches in the examples. -/
def issV : JIssue := ⟨"PAR", ⟨none⟩, []⟩

/-- A fetch oracle: transient on attempts 0–3, success on attempt 4. -/
def att8a : Nat → Outcome JIssue :=
  fun n => if n < 4 then Outcome.transient else Outcome.ok issV

/-- A fetch oracle that raises the transient error on every attempt. -/
def att8b : Nat → Outcome JIssue := fun _ => Outcome.transient

/-- An update oracle that raises the transient error on every attempt. -/
def att8c : Nat → Outcome Unit := fun _ => Outcome.transient

/-- An update oracle: transient on attempts 0–3, success on attempt 4. -/
def att8d : Nat → Outcome Unit :=
  fun n => if n < 4 then Outcome.transient else Outcome.ok ()

/-- An update oracle that succeeds immediately. -/
def attOK : Nat → Outcome Unit := fun _ => Outcome.ok ()

/-- An issue whose raw data has an attached (nonempty) Context entry. -/
def exJ : JIssue := ⟨"K", ⟨some [("Field Ids", "x")]⟩, []⟩

/-- An issue whose raw data's Context entry is the empty dict. -/
def ex10 : JIssue := ⟨"K", ⟨some []⟩, []⟩

/-- Example update payload. -/
def dataEx : List (String × String) := [("summary", "s")]

/-- A nonempty Parent Link field id. -/
def fidEx : String := "customfield_12313140"

/-- A child whose priority name is not one of the six fixed tiers. -/
def cBad : Issue := ⟨"B1", "Bizarre", pPar, pProj, tFeat⟩

/-- Key of the parent ticket fetched in the retry examples. -/
def kEx : String := "PAR-1"

/-- A fetch oracle: transient twice, then a non-transient failure. -/
def attF2 : Nat → Outcome JIssue :=
  fun n => if n < 2 then Outcome.transient else Outcome.fatal

/-- An update oracle that raises a non-transient error immediately. -/
def attF0 : Nat → Outcome Unit := fun _ => Outcome.fatal

/-- A search oracle that raises the transient error on its first attempt. -/
def attS0 : Nat → Outcome (List Issue) := fun _ => Outcome.transient

/-- A fetch oracle agreeing with `att8b` on the first five attempts. -/
def attAlt : Nat → Outcome JIssue :=
  fun n => if n < 5 then Outcome.transient else Outcome.ok issV

/-- A tracker state with no children of `pPar`. -/
def w5a : List Issue := [iX]

/-- A tracker state where the children query succeeds but the
`priority<=Undefined` anchor query returns nothing. -/
def w5b : List Issue := [iX, iF1]

/-- The tail of the tier list after "Undefined". -/
def tiersTail : List String := [tMinor, tNormal, tMajor, tCritical, tBlocker]

/-- The tier map after the worked example's full run. -/
def mFex : List (String × Issue) := [(tBlocker, iF3), (tMajor, iF2)]

/-- The full anchor map after processing the single child F1. -/
def m1full : List (String × Issue) :=
  [(tUndefined, iU), (tMinor, iU), (tNormal, iU), (tMajor, iY), (tCritical, iY), (tBlocker, iF1)]

/-- How the query stage can end abnormally: `sys.exit(1)` on an empty result,
or an exception raised by a backend call and caught nowhere. -/
inductive RunErr where
  | exit
  | raised (e : PyErr)
  deriving DecidableEq

/-- How `check_rank` can end abnormally: the `KeyError` of a priority name
missing from the tier map, or an exception raised by the rank call and caught
nowhere. -/
inductive CrErr where
  | keyError (p : String)
  | raised (e : PyErr)
  deriving DecidableEq

/-- `get_highest_ranked_issues` run against a fallible backend: for each tier
the code performs a single `jira_client.search_issues(query, maxResults=1)`
call with no surrounding try/except, given by the oracle `attQ tier attempt`.
An error raised on the call's first attempt propagates immediately (the
oracle's later attempts are never consulted — the call is not retried), an
empty result is `sys.exit(1)`, and otherwise the head ticket is bound to the
tier. -/
def get_highest_ranked_issues_eff (attQ : String → Nat → Outcome (List Issue)) :
    List String → Except RunErr (List (String × Issue))
  | [] => Except.ok []
  | p :: ps =>
    match attQ p 0 with
    | Outcome.transient => Except.error (RunErr.raised PyErr.jiraError)
    | Outcome.fatal => Except.error (RunErr.raised PyErr.other)
    | Outcome.ok issues =>
      match issues with
      | [] => Except.error RunErr.exit
      | t :: _ =>
        match get_highest_ranked_issues_eff attQ ps with
        | Except.error e => Except.error e
        | Except.ok m => Except.ok ((p, t) :: m)

/-- `check_rank` run against a fallible rank API: after the lookup, the map
update and the log append, the non-dry path performs a single
`jira_client.rank(issue.key, next_issue=top_issue.key)` call with no
surrounding try/except, given by the oracle `attR`.  An error raised on the
call's first attempt propagates immediately (later attempts are never
consulted — the call is not retried). -/
def check_rank_eff (dry : Bool) (issue : Issue) (m : List (String × Issue))
    (attR : Nat → Outcome Unit) :
    Except CrErr (List (String × Issue) × String × List (String × String)) :=
  match lookupTier m issue.priority with
  | none => Except.error (CrErr.keyError issue.priority)
  | some top =>
    let m2 := setTier m issue.priority issue
    let line :=
      "  > Issue rank of " ++ issue.key ++ "(" ++ issue.priority ++ ") moved above " ++ top.key
    if dry then Except.ok (m2, line, [])
    else
      match attR 0 with
      | Outcome.ok _ => Except.ok (m2, line, [(issue.key, top.key)])
      | Outcome.transient => Except.error (CrErr.raised PyErr.jiraError)
      | Outcome.fatal => Except.error (CrErr.raised PyErr.other)

/-- A per-tier search oracle that fails transiently on the Minor query and
returns the bottom ticket for every other tier. -/
def attQ1 : String → Nat → Outcome (List Issue) :=
  fun q _ => if q = tMinor then Outcome.transient else Outcome.ok [iU]

/-- A rank oracle succeeding on its first attempt and failing afterwards. -/
def attR1 : Nat → Outcome Unit :=
  fun n => if n = 0 then Outcome.ok () else Outcome.fatal

/-- A rank oracle succeeding on every attempt. -/
def attR2 : Nat → Outcome Unit := fun _ => Outcome.ok ()

/-- Replacing a binding keeps the key list of the tier map unchanged. -/
theorem setTier_keys (m : List (String × Issue)) (p : String) (x : Issue) :
    (setTier m p x).map Prod.fst = m.map Prod.fst := by
  induction m with
  | nil => rfl
  | cons kv m ih =>
    by_cases h : kv.1 = p
    · simp [setTier, h, ih]
    · simp [setTier, h, ih]

/-- A key absent from the tier map's key list looks up to `none`. -/
theorem lookupTier_eq_none (m : List (String × Issue)) (p : String)
    (h : p ∉ m.map Prod.fst) : lookupTier m p = none := by
  induction m with
  | nil => rfl
  | cons kv m ih =>
    simp only [List.map_cons, List.mem_cons] at h
    push_neg at h
    have h1 : ¬ kv.1 = p := fun hh => h.1 hh.symm
    simp [lookupTier, h1, ih h.2]

/-- After replacing a present binding, looking the same key up returns the
new value. -/
theorem lookupTier_set_self (m : List (String × Issue)) (p : String) (x top : Issue)
    (h : lookupTier m p = some top) : lookupTier (setTier m p x) p = some x := by
  induction m with
  | nil => simp [lookupTier] at h
  | cons kv m ih =>
    by_cases hk : kv.1 = p
    · simp [setTier, lookupTier, hk]
    · simp only [lookupTier, if_neg hk] at h
      simp [setTier, lookupTier, hk, ih h]

/-- Replacing one key's binding leaves lookups of other keys unchanged. -/
theorem lookupTier_set_ne (m : List (String × Issue)) (p q : String) (x : Issue)
    (h : q ≠ p) : lookupTier (setTier m p x) q = lookupTier m q := by
  induction m with
  | nil => rfl
  | cons kv m ih =>
    simp only [setTier]
    by_cases hq : kv.1 = q
    · have hk : ¬ kv.1 = p := by rw [hq]; exact h
      rw [if_neg hk]
      simp only [lookupTier]
      rw [if_pos hq, if_pos hq]
    · by_cases hk : kv.1 = p
      · rw [if_pos hk]
        simp only [lookupTier]
        rw [if_neg hq, if_neg hq, ih]
      · rw [if_neg hk]
        simp only [lookupTier]
        rw [if_neg hq, if_neg hq, ih]

/-- The per-child loop in dry-run mode produces the same log lines and the
same final tier map as in real mode, and makes no rank API calls. -/
theorem runChildren_dry_real (cs : List Issue) : ∀ (m : List (String × Issue)),
    (runChildren true m cs).logs = (runChildren false m cs).logs ∧
    (runChildren true m cs).tierMap = (runChildren false m cs).tierMap ∧
    (runChildren true m cs).calls = [] := by
  induction cs with
  | nil => intro m; exact ⟨rfl, rfl, rfl⟩
  | cons c cs ih =>
    intro m
    cases h : lookupTier m c.priority with
    | none => simp [runChildren, check_rank, h]
    | some top =>
      have := ih (setTier m c.priority c)
      simp [runChildren, check_rank, h, this.1, this.2.1, this.2.2]

/-- Splitting the children list: when the loop over the first part ends with
tier map `mx`, the loop over the whole list continues from `mx`, and the log
lines and rank calls concatenate. -/
theorem runChildren_append (d : Bool) (xs : List Issue) :
    ∀ (ys : List Issue) (m mx : List (String × Issue)),
    (runChildren d m xs).tierMap = Except.ok mx →
    runChildren d m (xs ++ ys) =
      ⟨(runChildren d mx ys).tierMap,
        (runChildren d m xs).logs ++ (runChildren d mx ys).logs,
        (runChildren d m xs).calls ++ (runChildren d mx ys).calls⟩ := by
  induction xs with
  | nil =>
    intro ys m mx h
    simp only [runChildren] at h
    cases h
    simp [runChildren]
  | cons c xs ih =>
    intro ys m mx h
    cases hc : check_rank d c m with
    | error e => simp [runChildren, hc] at h
    | ok r =>
      obtain ⟨m2, line, calls⟩ := r
      simp only [runChildren, hc] at h
      rw [List.cons_append]
      simp only [runChildren, hc]
      rw [ih ys m2 mx h]
      simp [List.append_assoc]

/-- The loop never changes the key list of the tier map. -/
theorem runChildren_keys (d : Bool) (cs : List Issue) :
    ∀ (m mF : List (String × Issue)),
    (runChildren d m cs).tierMap = Except.ok mF →
    mF.map Prod.fst = m.map Prod.fst := by
  induction cs with
  | nil =>
    intro m mF h
    simp only [runChildren] at h
    cases h
    rfl
  | cons c cs ih =>
    intro m mF h
    cases hl : lookupTier m c.priority with
    | none => simp [runChildren, check_rank, hl] at h
    | some top =>
      simp only [runChildren, check_rank, hl] at h
      rw [ih (setTier m c.priority c) mF h, setTier_keys]

/-- C1: on the worked example — children [F1(Blocker), F2(Major),
F3(Blocker)] in that order, anchors {Blocker: X, Major: Y} — the engine
produces exactly the three moves F1 above X, F2 above Y, F3 above F1 with
their three log lines, with the anchor map reading Blocker ← F1 after the
first move, Major ← F2 after the second, and Blocker ← F3 (and Major ← F2)
after the third. -/
theorem c1_worked_example :
    runChildren false m0ex [iF1, iF2, iF3] =
      ⟨Except.ok [(tBlocker, iF3), (tMajor, iF2)],
        ["  > Issue rank of F1(Blocker) moved above X",
          "  > Issue rank of F2(Major) moved above Y",
          "  > Issue rank of F3(Blocker) moved above F1"],
        [("F1", "X"), ("F2", "Y"), ("F3", "F1")]⟩ ∧
    (runChildren false m0ex [iF1]).tierMap = Except.ok [(tBlocker, iF1), (tMajor, iY)] ∧
    (runChildren false m0ex [iF1, iF2]).tierMap =
      Except.ok [(tBlocker, iF1), (tMajor, iF2)] :=
  ⟨rfl, rfl, rfl⟩

/-- C2 counterexample: on the worked example the second run is not free of
rank-move operations — the code calls the rank API once per child
unconditionally, so re-running on the post-run state issues 3 rank-move
calls, not 0. -/
theorem c2_counterexample :
    runOnce exWorld pPar pProj tFeat =
      some (exWorld1, [("F1", "X"), ("F2", "Y"), ("F3", "F1")]) ∧
    Option.map (fun r => r.2.length) (runOnce exWorld1 pPar pProj tFeat) = some 3 :=
  ⟨rfl, rfl⟩

/-- C2 amended: re-running on the worked example issues one rank-move call
per child again (three calls, each placing a child above its tier's current
top), but the moves collectively leave the global rank order unchanged: the
second run returns exactly the order the first run produced. -/
theorem c2_rerun_preserves_order :
    runOnce exWorld1 pPar pProj tFeat =
      some (exWorld1, [("F2", "F2"), ("F1", "F3"), ("F3", "F1")]) :=
  rfl

/-- C4: dry-run mode suppresses only the mutating rank calls — the queries
issued, the per-child tier-map bookkeeping and the log output of a dry run
are identical to a real run's on every input, and the dry run makes zero
rank-move API calls. -/
theorem c4_dry_run_equivalence (world : List Issue) (parent proj ty : String)
    (m : List (String × Issue)) (cs : List Issue) :
    (process_type true world parent proj ty).1 = (process_type false world parent proj ty).1 ∧
    Option.map RunResult.logs (process_type true world parent proj ty).2 =
      Option.map RunResult.logs (process_type false world parent proj ty).2 ∧
    Option.map RunResult.tierMap (process_type true world parent proj ty).2 =
      Option.map RunResult.tierMap (process_type false world parent proj ty).2 ∧
    Option.map RunResult.calls (process_type true world parent proj ty).2 =
      Option.map (fun _ => ([] : List (String × String)))
        (process_type true world parent proj ty).2 ∧
    (runChildren true m cs).logs = (runChildren false m cs).logs ∧
    (runChildren true m cs).tierMap = (runChildren false m cs).tierMap ∧
    (runChildren true m cs).calls = [] := by
  have hrc := runChildren_dry_real cs m
  refine ⟨?_, ?_, ?_, ?_, hrc.1, hrc.2.1, hrc.2.2⟩ <;>
    · cases hq : processQueries world parent proj ty with
      | mk qs r =>
        cases r with
        | error e => simp [process_type, hq]
        | ok v =>
          obtain ⟨cs2, m2⟩ := v
          have h2 := runChildren_dry_real cs2 m2
          simp [process_type, hq, h2.1, h2.2.1, h2.2.2]

/-- One transient attempt consumes one unit of retry fuel. -/
theorem retryFetch_transient {α : Type} (att : Nat → Outcome α) (fuel n : Nat)
    (h : att n = Outcome.transient) :
    retryFetch att (fuel + 1) n = retryFetch att fuel (n + 1) := by
  simp [retryFetch, h]

/-- A successful attempt ends the retry loop with its value. -/
theorem retryFetch_succeeds {α : Type} (att : Nat → Outcome α) (fuel n : Nat) (v : α)
    (h : att n = Outcome.ok v) :
    retryFetch att (fuel + 1) n = Except.ok (some v) := by
  simp [retryFetch, h]

/-- A non-transient failure is not caught: it propagates at once. -/
theorem retryFetch_fatal {α : Type} (att : Nat → Outcome α) (fuel n : Nat)
    (h : att n = Outcome.fatal) :
    retryFetch att (fuel + 1) n = Except.error PyErr.other := by
  simp [retryFetch, h]

/-- Running the retry loop past `j` consecutive transient failures. -/
theorem retryFetch_skip {α : Type} (att : Nat → Outcome α) :
    ∀ (j fuel n : Nat), (∀ i, i < j → att (n + i) = Outcome.transient) →
      retryFetch att (fuel + j) n = retryFetch att fuel (n + j) := by
  intro j
  induction j with
  | zero => intro fuel n _; rfl
  | succ j ih =>
    intro fuel n h
    have h0 : att n = Outcome.transient := by
      have := h 0 (by omega)
      simpa using this
    have step : retryFetch att (fuel + j + 1) n = retryFetch att (fuel + j) (n + 1) :=
      retryFetch_transient att (fuel + j) n h0
    have rest := ih fuel (n + 1) (fun i hi => by
      have := h (i + 1) (by omega)
      have harith : n + (i + 1) = n + 1 + i := by omega
      rwa [harith] at this)
    have harith2 : n + 1 + j = n + (j + 1) := by omega
    rw [harith2] at rest
    calc retryFetch att (fuel + (j + 1)) n = retryFetch att (fuel + j) (n + 1) := step
      _ = retryFetch att fuel (n + (j + 1)) := rest

/-- After `j` consecutive transient failures a non-transient failure on
attempt `j` (with fuel left) propagates out of the retry loop. -/
theorem retryFetch_fatal_at {α : Type} (att : Nat → Outcome α) (j : Nat)
    (hj : j < 5) (hT : ∀ i, i < j → att i = Outcome.transient)
    (hF : att j = Outcome.fatal) :
    retryFetch att 5 0 = Except.error PyErr.other := by
  have hskip : retryFetch att ((5 - j) + j) 0 = retryFetch att (5 - j) j := by
    have := retryFetch_skip att j (5 - j) 0 (fun i hi => by simpa using hT i hi)
    simpa using this
  have h5 : (5 - j) + j = 5 := by omega
  rw [h5] at hskip
  rw [hskip]
  have : 5 - j = (5 - j - 1) + 1 := by omega
  rw [this]
  exact retryFetch_fatal att (5 - j - 1) j hF

/-- The retry loop's result depends only on its first `fuel` attempts. -/
theorem retryFetch_congr {α : Type} (att att2 : Nat → Outcome α) :
    ∀ (fuel n : Nat), (∀ i, i < fuel → att (n + i) = att2 (n + i)) →
      retryFetch att fuel n = retryFetch att2 fuel n := by
  intro fuel
  induction fuel with
  | zero => intro n _; rfl
  | succ f ih =>
    intro n h
    have h0 : att n = att2 n := by
      have := h 0 (by omega)
      simpa using this
    cases h2 : att2 n with
    | ok v =>
      rw [retryFetch_succeeds att f n v (h0.trans h2), retryFetch_succeeds att2 f n v h2]
    | fatal =>
      rw [retryFetch_fatal att f n (h0.trans h2), retryFetch_fatal att2 f n h2]
    | transient =>
      rw [retryFetch_transient att f n (h0.trans h2), retryFetch_transient att2 f n h2]
      exact ih (n + 1) (fun i hi => by
        have := h (i + 1) (by omega)
        have harith : n + (i + 1) = n + 1 + i := by omega
        rwa [harith] at this)

/-- With a nonempty Parent Link field id and a present parent key,
`get_parent` is exactly the 5-attempt retry loop around the fetch. -/
theorem get_parent_eq_retry (fid k : String) (hf : fid ≠ "")
    (att : Nat → Outcome JIssue) :
    get_parent fid (some k) att = retryFetch att 5 0 := by
  unfold get_parent
  rw [if_neg hf]

/-- One transient attempt of the update loop consumes one unit of fuel. -/
theorem updateLoop_transient (i : JIssue) (data : List (String × String))
    (att : Nat → Outcome Unit) (fuel n : Nat) (h : att n = Outcome.transient) :
    updateLoop i data att (fuel + 1) n = updateLoop i data att fuel (n + 1) := by
  simp [updateLoop, h]

/-- A successful attempt applies the update and breaks out of the loop. -/
theorem updateLoop_succeeds (i : JIssue) (data : List (String × String))
    (att : Nat → Outcome Unit) (fuel n : Nat) (h : att n = Outcome.ok ()) :
    updateLoop i data att (fuel + 1) n = Except.ok (tryUpdate i data) := by
  simp [updateLoop, h]

/-- A non-transient failure propagates out of the update loop at once. -/
theorem updateLoop_fatal (i : JIssue) (data : List (String × String))
    (att : Nat → Outcome Unit) (fuel n : Nat) (h : att n = Outcome.fatal) :
    updateLoop i data att (fuel + 1) n = Except.error PyErr.other := by
  simp [updateLoop, h]

/-- Running the update loop past `j` consecutive transient failures. -/
theorem updateLoop_skip (i : JIssue) (data : List (String × String))
    (att : Nat → Outcome Unit) :
    ∀ (j fuel n : Nat), (∀ a, a < j → att (n + a) = Outcome.transient) →
      updateLoop i data att (fuel + j) n = updateLoop i data att fuel (n + j) := by
  intro j
  induction j with
  | zero => intro fuel n _; rfl
  | succ j ih =>
    intro fuel n h
    have h0 : att n = Outcome.transient := by
      have := h 0 (by omega)
      simpa using this
    have step := updateLoop_transient i data att (fuel + j) n h0
    have rest := ih fuel (n + 1) (fun a ha => by
      have := h (a + 1) (by omega)
      have harith : n + (a + 1) = n + 1 + a := by omega
      rwa [harith] at this)
    have harith2 : n + 1 + j = n + (j + 1) := by omega
    rw [harith2] at rest
    calc updateLoop i data att (fuel + (j + 1)) n
        = updateLoop i data att (fuel + j) (n + 1) := step
      _ = updateLoop i data att fuel (n + (j + 1)) := rest

/-- When the retry loop ends at the unchanged issue, `update` returns the
issue itself: the context restore rewrites the raw data it saved. -/
theorem update_of_loop_self (i : JIssue) (data : List (String × String))
    (att : Nat → Outcome Unit) (h : updateLoop i data att 5 0 = Except.ok i) :
    update i data att = Except.ok i := by
  unfold update
  rw [h]
  cases i with
  | mk k r a =>
    cases r with
    | mk ctx =>
      cases ctx with
      | none => rfl
      | some c =>
        by_cases hce : c = []
        · simp [hce]
        · simp [hce]

/-- Whatever the loop produced, `update` returns normally with those applied
fields (the restore step only touches the raw data). -/
theorem update_ok_applied (i : JIssue) (data : List (String × String))
    (att : Nat → Outcome Unit) (j : JIssue)
    (h : updateLoop i data att 5 0 = Except.ok j) :
    ∃ j2, update i data att = Except.ok j2 ∧ j2.applied = j.applied := by
  unfold update
  rw [h]
  cases hc : i.raw.context with
  | none => exact ⟨j, rfl, rfl⟩
  | some c =>
    by_cases hce : c = []
    · exact ⟨j, by simp [hce], rfl⟩
    · exact ⟨⟨j.key, ⟨some c⟩, j.applied⟩, by simp [hce], rfl⟩

/-- C8: a retry-wrapped call that fails transiently on attempts 1–4 and
succeeds on attempt 5 yields the successful result with no visible error;
five consecutive transient failures exhaust silently — `get_parent` returns
`None`, and `update` returns with the issue unchanged (the update is not
applied); a transient run followed by a success still applies the update. -/
theorem c8_retry_boundary (fid k : String) (hf : fid ≠ "")
    (att : Nat → Outcome JIssue) (v : JIssue) (i : JIssue)
    (data : List (String × String)) (attU : Nat → Outcome Unit) :
    ((∀ n, n < 4 → att n = Outcome.transient) → att 4 = Outcome.ok v →
       get_parent fid (some k) att = Except.ok (some v)) ∧
    ((∀ n, n < 5 → att n = Outcome.transient) →
       get_parent fid (some k) att = Except.ok none) ∧
    ((∀ n, n < 5 → attU n = Outcome.transient) →
       update i data attU = Except.ok i) ∧
    ((∀ n, n < 4 → attU n = Outcome.transient) → attU 4 = Outcome.ok () →
       ∃ j, update i data attU = Except.ok j ∧ j.applied = i.applied ++ data) := by
  refine ⟨?_, ?_, ?_, ?_⟩
  · intro hT hok
    rw [get_parent_eq_retry fid k hf att]
    have hskip := retryFetch_skip att 4 1 0 (fun n hn => by simpa using hT n hn)
    have h5 : (1 + 4 : Nat) = 5 := by omega
    rw [h5] at hskip
    simp only [Nat.zero_add] at hskip
    rw [hskip]
    exact retryFetch_succeeds att 0 4 v hok
  · intro hT
    rw [get_parent_eq_retry fid k hf att]
    have hskip := retryFetch_skip att 5 0 0 (fun n hn => by simpa using hT n hn)
    have h5 : (0 + 5 : Nat) = 5 := by omega
    rw [h5] at hskip
    rw [hskip]
    rfl
  · intro hT
    apply update_of_loop_self
    have hskip := updateLoop_skip i data attU 5 0 0 (fun n hn => by simpa using hT n hn)
    have h5 : (0 + 5 : Nat) = 5 := by omega
    rw [h5] at hskip
    rw [hskip]
    rfl
  · intro hT hok
    have hskip := updateLoop_skip i data attU 4 1 0 (fun n hn => by simpa using hT n hn)
    have h5 : (1 + 4 : Nat) = 5 := by omega
    rw [h5] at hskip
    simp only [Nat.zero_add] at hskip
    have hloop : updateLoop i data attU 5 0 = Except.ok (tryUpdate i data) := by
      rw [hskip]
      exact updateLoop_succeeds i data attU 0 4 hok
    obtain ⟨j2, hj2, ha⟩ := update_ok_applied i data attU (tryUpdate i data) hloop
    exact ⟨j2, hj2, ha⟩

/-- C8 witness: the retry boundary at concrete oracles — four transients then
success yields the fetched ticket, five transients yield `None` for
`get_parent` and an unchanged issue for `update`, and a success on the last
attempt still applies the update payload. -/
theorem c8_retry_boundary_witness :
    get_parent fidEx (some kEx) att8a = Except.ok (some issV) ∧
    get_parent fidEx (some kEx) att8b = Except.ok none ∧
    update exJ dataEx att8c = Except.ok exJ ∧
    (∃ j, update exJ dataEx att8d = Except.ok j ∧ j.applied = exJ.applied ++ dataEx) := by
  have hf : fidEx ≠ "" := by decide
  refine ⟨(c8_retry_boundary fidEx kEx hf att8a issV exJ dataEx att8c).1 ?_ ?_,
    (c8_retry_boundary fidEx kEx hf att8b issV exJ dataEx att8c).2.1 ?_,
    (c8_retry_boundary fidEx kEx hf att8b issV exJ dataEx att8c).2.2.1 ?_,
    (c8_retry_boundary fidEx kEx hf att8b issV exJ dataEx att8d).2.2.2 ?_ ?_⟩
  · decide
  · decide
  · decide
  · decide
  · decide
  · decide

/-- C3 counterexample: the search-results fetch is not wrapped in any retry
loop — a transient tracker error on the very first attempt propagates out of
`get_issues`, even though the next attempt would succeed and the 5-attempt
retry wrapper used elsewhere in the code would have returned that success. -/
theorem c3_counterexample :
    get_issues_call att3 = Except.error PyErr.jiraError ∧
    att3 1 = Outcome.ok [iX] ∧
    retryFetch att3 5 0 = Except.ok (some [iX]) :=
  ⟨rfl, rfl, rfl⟩

/-- With a backend that answers every per-tier query successfully with the
head of the `priority<=tier` filter, the fallible-backend pass agrees with
the pure embedding (`sys.exit(1)` becoming `RunErr.exit`). -/
theorem ghi_eff_agrees (world : List Issue) (proj ty : String) :
    ∀ ps : List String,
      get_highest_ranked_issues_eff
          (fun p _ => Outcome.ok
            (match topAtOrBelow world proj ty p with
              | none => []
              | some t => [t])) ps =
        Except.mapError (fun _ => RunErr.exit)
          (get_highest_ranked_issues world proj ty ps).2 := by
  intro ps
  induction ps with
  | nil => rfl
  | cons p ps ih =>
    cases ht : topAtOrBelow world proj ty p with
    | none =>
      simp [get_highest_ranked_issues_eff, get_highest_ranked_issues, ht, Except.mapError]
    | some t =>
      cases hr : get_highest_ranked_issues world proj ty ps with
      | mk qs r =>
        rw [hr] at ih
        cases r with
        | error e =>
          simp only [Except.mapError] at ih
          simp [get_highest_ranked_issues_eff, get_highest_ranked_issues, ht, hr, ih,
            Except.mapError]
        | ok m =>
          simp only [Except.mapError] at ih
          simp [get_highest_ranked_issues_eff, get_highest_ranked_issues, ht, hr, ih,
            Except.mapError]

/-- With a rank API that succeeds, the fallible-rank `check_rank` agrees with
the pure embedding (the `KeyError` carried into `CrErr`). -/
theorem check_rank_eff_agrees (dry : Bool) (c : Issue) (m : List (String × Issue)) :
    check_rank_eff dry c m (fun _ => Outcome.ok ()) =
      Except.mapError CrErr.keyError (check_rank dry c m) := by
  cases hl : lookupTier m c.priority with
  | none => simp [check_rank_eff, check_rank, hl, Except.mapError]
  | some top => cases dry <;> simp [check_rank_eff, check_rank, hl, Except.mapError]

/-- C3 amended: only the single-ticket fetch inside `get_parent` and the
ticket update inside `update` are wrapped in the bounded retry loop — up to 5
attempts, catching only the tracker's transient error, with any other failure
propagating immediately — while the search-results fetches (the children
query and each per-tier anchor query) and the rank-move call are each issued
exactly once with no retry and no handler, so even a transient tracker error
there propagates on its first occurrence. -/
theorem c3_retry_scope (fid k : String) (hf : fid ≠ "")
    (att : Nat → Outcome JIssue) (i : JIssue) (data : List (String × String))
    (attU : Nat → Outcome Unit) (attS : Nat → Outcome (List Issue))
    (attQ : String → Nat → Outcome (List Issue)) (attR attR2a : Nat → Outcome Unit)
    (c : Issue) (m : List (String × Issue)) :
    (∀ j, j < 5 → (∀ n, n < j → att n = Outcome.transient) → att j = Outcome.fatal →
       get_parent fid (some k) att = Except.error PyErr.other) ∧
    (∀ att2 : Nat → Outcome JIssue, (∀ n, n < 5 → att n = att2 n) →
       get_parent fid (some k) att = get_parent fid (some k) att2) ∧
    (∀ j, j < 5 → (∀ n, n < j → attU n = Outcome.transient) → attU j = Outcome.fatal →
       update i data attU = Except.error PyErr.other) ∧
    (attS 0 = Outcome.transient → get_issues_call attS = Except.error PyErr.jiraError) ∧
    (∀ (l1 : List String) (p : String) (l2 : List String),
       (∀ q ∈ l1, ∃ t ts, attQ q 0 = Outcome.ok (t :: ts)) →
       attQ p 0 = Outcome.transient →
       get_highest_ranked_issues_eff attQ (l1 ++ p :: l2) =
         Except.error (RunErr.raised PyErr.jiraError)) ∧
    (∀ top, lookupTier m c.priority = some top → attR 0 = Outcome.transient →
       check_rank_eff false c m attR = Except.error (CrErr.raised PyErr.jiraError)) ∧
    (∀ dry, attR 0 = attR2a 0 →
       check_rank_eff dry c m attR = check_rank_eff dry c m attR2a) := by
  refine ⟨?_, ?_, ?_, ?_, ?_, ?_, ?_⟩
  · intro j hj hT hF
    rw [get_parent_eq_retry fid k hf att]
    exact retryFetch_fatal_at att j hj hT hF
  · intro att2 h
    rw [get_parent_eq_retry fid k hf att, get_parent_eq_retry fid k hf att2]
    exact retryFetch_congr att att2 5 0 (fun n hn => by simpa using h n hn)
  · intro j hj hT hF
    unfold update
    have hskip : updateLoop i data attU ((5 - j) + j) 0 = updateLoop i data attU (5 - j) j := by
      have := updateLoop_skip i data attU j (5 - j) 0 (fun n hn => by simpa using hT n hn)
      simpa using this
    have h5 : (5 - j) + j = 5 := by omega
    rw [h5] at hskip
    rw [hskip]
    have hsj : 5 - j = (5 - j - 1) + 1 := by omega
    rw [hsj, updateLoop_fatal i data attU (5 - j - 1) j hF]
  · intro h
    unfold get_issues_call
    rw [h]
  · intro l1
    induction l1 with
    | nil =>
      intro p l2 _ hp
      simp [get_highest_ranked_issues_eff, hp]
    | cons q l1 ih =>
      intro p l2 hq hp
      obtain ⟨t, ts, hq0⟩ := hq q (List.mem_cons_self q l1)
      have hrest := ih p l2 (fun r hr => hq r (List.mem_cons_of_mem q hr)) hp
      simp [get_highest_ranked_issues_eff, hq0, hrest]
  · intro top hl hR
    simp [check_rank_eff, hl, hR]
  · intro dry h
    cases hl : lookupTier m c.priority with
    | none => simp [check_rank_eff, hl]
    | some top =>
      cases dry with
      | true => simp [check_rank_eff, hl]
      | false => simp [check_rank_eff, hl, h]

/-- C3 witness: the retry-scope facts at concrete oracles — a third-attempt
non-transient failure propagates from `get_parent` and from `update`, the
result of `get_parent` only depends on the first five attempts, a transient
children-search failure propagates from the single search attempt, a
transient anchor-tier query fails the pass right where it occurs, a transient
rank failure propagates out of `check_rank`, and `check_rank` consults only
the rank call's first attempt. -/
theorem c3_retry_scope_witness :
    get_parent fidEx (some kEx) attF2 = Except.error PyErr.other ∧
    get_parent fidEx (some kEx) att8b = get_parent fidEx (some kEx) attAlt ∧
    update exJ dataEx attF0 = Except.error PyErr.other ∧
    get_issues_call attS0 = Except.error PyErr.jiraError ∧
    get_highest_ranked_issues_eff attQ1 ([tUndefined] ++ tMinor :: [tNormal]) =
      Except.error (RunErr.raised PyErr.jiraError) ∧
    check_rank_eff false iF1 m0ex att8c = Except.error (CrErr.raised PyErr.jiraError) ∧
    check_rank_eff false iF1 m0ex attR1 = check_rank_eff false iF1 m0ex attR2 := by
  have hf : fidEx ≠ "" := by decide
  refine ⟨(c3_retry_scope fidEx kEx hf attF2 exJ dataEx attF0 attS0 attQ1 attR1 attR2
      iF1 m0ex).1 2 (by omega) ?_ ?_,
    (c3_retry_scope fidEx kEx hf att8b exJ dataEx attF0 attS0 attQ1 attR1 attR2
      iF1 m0ex).2.1 attAlt ?_,
    (c3_retry_scope fidEx kEx hf attF2 exJ dataEx attF0 attS0 attQ1 attR1 attR2
      iF1 m0ex).2.2.1 0 (by omega) ?_ ?_,
    (c3_retry_scope fidEx kEx hf attF2 exJ dataEx attF0 attS0 attQ1 attR1 attR2
      iF1 m0ex).2.2.2.1 ?_,
    (c3_retry_scope fidEx kEx hf attF2 exJ dataEx attF0 attS0 attQ1 attR1 attR2
      iF1 m0ex).2.2.2.2.1 [tUndefined] tMinor [tNormal] ?_ ?_,
    (c3_retry_scope fidEx kEx hf attF2 exJ dataEx attF0 attS0 attQ1 att8c attR2
      iF1 m0ex).2.2.2.2.2.1 iX ?_ ?_,
    (c3_retry_scope fidEx kEx hf attF2 exJ dataEx attF0 attS0 attQ1 attR1 attR2
      iF1 m0ex).2.2.2.2.2.2 false ?_⟩
  · decide
  · decide
  · decide
  · decide
  · decide
  · decide
  · intro q hq
    have hqu : q = tUndefined := by simpa using hq
    subst hqu
    exact ⟨iU, [], by decide⟩
  · decide
  · decide
  · decide
  · decide

/-- C10 counterexample: an issue whose raw data carries an *empty* `"Context"`
dict loses it across a successful `update` — Python's `if issue_context:` is
false for the empty dict, so the entry deleted by the underlying update is
not restored. -/
theorem c10_counterexample :
    ex10.raw.context = some [] ∧
    update ex10 dataEx attOK = Except.ok ⟨"K", ⟨none⟩, dataEx⟩ ∧
    (⟨"K", ⟨none⟩, dataEx⟩ : JIssue).raw.context ≠ ex10.raw.context :=
  ⟨rfl, rfl, by decide⟩

/-- C10 amended: `update` preserves a *nonempty* attached Context record —
whenever the issue's raw data holds a nonempty `"Context"` entry before the
call and `update` returns normally, the entry afterwards equals its value
before the call, whether the underlying tracker update succeeded or exhausted
its retries. -/
theorem c10_context_preserved (i : JIssue) (data : List (String × String))
    (att : Nat → Outcome Unit) (c : List (String × String)) (j : JIssue)
    (h1 : i.raw.context = some c) (h2 : c ≠ [])
    (h3 : update i data att = Except.ok j) :
    j.raw.context = some c := by
  unfold update at h3
  cases hl : updateLoop i data att 5 0 with
  | error e => rw [hl] at h3; cases h3
  | ok j0 =>
    rw [hl, h1] at h3
    simp [h2] at h3
    subst h3
    rfl

/-- C10 witness: the nonempty Context of `exJ` survives an `update` whose
five attempts all fail transiently. -/
theorem c10_context_preserved_witness :
    exJ.raw.context = some [("Field Ids", "x")] :=
  c10_context_preserved exJ dataEx att8c [("Field Ids", "x")] exJ rfl (by decide) rfl

/-- Characterization of a successful anchor-query pass: the tiers queried are
exactly the tiers asked for, the map's keys are those tiers in order, and each
tier is bound to the first ticket in rank order whose priority is at or below
it. -/
theorem ghi_ok_char (world : List Issue) (proj ty : String) :
    ∀ (ps qs : List String) (m : List (String × Issue)),
      get_highest_ranked_issues world proj ty ps = (qs, Except.ok m) →
      qs = ps ∧ m.map Prod.fst = ps ∧
      ∀ p ∈ ps, lookupTier m p = topAtOrBelow world proj ty p := by
  intro ps
  induction ps with
  | nil =>
    intro qs m h
    simp only [get_highest_ranked_issues, Prod.mk.injEq] at h
    obtain ⟨h1, h2⟩ := h
    cases h2
    exact ⟨h1.symm, rfl, by simp⟩
  | cons p ps ih =>
    intro qs m h
    cases ht : topAtOrBelow world proj ty p with
    | none => simp [get_highest_ranked_issues, ht] at h
    | some t =>
      cases hr : get_highest_ranked_issues world proj ty ps with
      | mk qs2 r2 =>
        cases r2 with
        | error e => simp [get_highest_ranked_issues, ht, hr] at h
        | ok m2 =>
          simp only [get_highest_ranked_issues, ht, hr, Prod.mk.injEq] at h
          obtain ⟨hq, hm⟩ := h
          cases hm
          obtain ⟨ihq, ihk, ihl⟩ := ih qs2 m2 hr
          refine ⟨by rw [← hq, ihq], by simp [ihk], ?_⟩
          intro q hqmem
          by_cases hqp : q = p
          · subst hqp
            simp [lookupTier, ht]
          · have hmem : q ∈ ps := by
              rcases List.mem_cons.mp hqmem with h1 | h1
              · exact absurd h1 hqp
              · exact h1
            have hne : ¬ (p = q) := fun hh => hqp hh.symm
            simp [lookupTier, hne, ihl q hmem]

/-- When every tier preceding `p` has an anchor but `p` has none, the
anchor-query pass stops at `p`: it queries exactly the tiers up to and
including `p` and exits. -/
theorem ghi_fail (world : List Issue) (proj ty : String) :
    ∀ (l1 : List String) (p : String) (l2 : List String),
      (∀ q ∈ l1, (topAtOrBelow world proj ty q).isSome) →
      topAtOrBelow world proj ty p = none →
      get_highest_ranked_issues world proj ty (l1 ++ p :: l2) =
        (l1 ++ [p], Except.error ()) := by
  intro l1
  induction l1 with
  | nil =>
    intro p l2 _ hp
    simp [get_highest_ranked_issues, hp]
  | cons q l1 ih =>
    intro p l2 hq hp
    have hqs : (topAtOrBelow world proj ty q).isSome := hq q (List.mem_cons_self q l1)
    obtain ⟨t, ht⟩ := Option.isSome_iff_exists.mp hqs
    have hrest := ih p l2 (fun r hr => hq r (List.mem_cons_of_mem q hr)) hp
    simp [get_highest_ranked_issues, ht, hrest]

/-- When every tier has an anchor, the anchor-query pass succeeds, querying
every tier. -/
theorem ghi_ok_exists (world : List Issue) (proj ty : String) :
    ∀ (ps : List String), (∀ q ∈ ps, (topAtOrBelow world proj ty q).isSome) →
      ∃ m, get_highest_ranked_issues world proj ty ps = (ps, Except.ok m) := by
  intro ps
  induction ps with
  | nil => intro _; exact ⟨[], rfl⟩
  | cons q ps ih =>
    intro h
    have hqs : (topAtOrBelow world proj ty q).isSome := h q (List.mem_cons_self q ps)
    obtain ⟨t, ht⟩ := Option.isSome_iff_exists.mp hqs
    obtain ⟨m, hm⟩ := ih (fun r hr => h r (List.mem_cons_of_mem q hr))
    exact ⟨(q, t) :: m, by simp [get_highest_ranked_issues, ht, hm]⟩

/-- C5: a required query returning zero results is fatal — the children query
returning nothing exits before any tier query is issued, and a tier anchor
query returning nothing exits without issuing the queries for the remaining
tiers; when every query returns at least one result, no exit occurs and the
query stage succeeds. -/
theorem c5_zero_results_fatal (world : List Issue) (parent proj ty : String) :
    (get_issues world parent proj ty = [] →
       processQueries world parent proj ty =
         ([JQuery.childrenQ parent proj ty], Except.error ())) ∧
    (get_issues world parent proj ty ≠ [] →
       ∀ (l1 : List String) (p : String) (l2 : List String),
         PRIORITY = l1 ++ p :: l2 →
         (∀ q ∈ l1, (topAtOrBelow world proj ty q).isSome) →
         topAtOrBelow world proj ty p = none →
         processQueries world parent proj ty =
           (JQuery.childrenQ parent proj ty ::
              (l1 ++ [p]).map (fun q => JQuery.topQ q proj ty),
             Except.error ())) ∧
    (get_issues world parent proj ty ≠ [] →
       (∀ q ∈ PRIORITY, (topAtOrBelow world proj ty q).isSome) →
       ∃ m, processQueries world parent proj ty =
         (JQuery.childrenQ parent proj ty ::
            PRIORITY.map (fun q => JQuery.topQ q proj ty),
           Except.ok (get_issues world parent proj ty, m))) := by
  refine ⟨?_, ?_, ?_⟩
  · intro h
    simp [processQueries, h]
  · intro h l1 p l2 hsplit hl1 hp
    have hempty : ¬ (get_issues world parent proj ty).isEmpty := by
      simpa [List.isEmpty_iff] using h
    have hghi := ghi_fail world proj ty l1 p l2 hl1 hp
    rw [← hsplit] at hghi
    simp [processQueries, hempty, hghi]
  · intro h hall
    have hempty : ¬ (get_issues world parent proj ty).isEmpty := by
      simpa [List.isEmpty_iff] using h
    obtain ⟨m, hm⟩ := ghi_ok_exists world proj ty PRIORITY hall
    exact ⟨m, by simp [processQueries, hempty, hm]⟩

/-- C5 witness: the fatal and non-fatal paths at concrete tracker states —
no children (one query, exit), children but no `priority<=Undefined` ticket
(exit right after the Undefined query), and the worked-example state where
all seven queries succeed. -/
theorem c5_zero_results_fatal_witness :
    processQueries w5a pPar pProj tFeat =
      ([JQuery.childrenQ pPar pProj tFeat], Except.error ()) ∧
    processQueries w5b pPar pProj tFeat =
      (JQuery.childrenQ pPar pProj tFeat ::
         ([] ++ [tUndefined]).map (fun q => JQuery.topQ q pProj tFeat),
        Except.error ()) ∧
    ∃ m, processQueries exWorld pPar pProj tFeat =
      (JQuery.childrenQ pPar pProj tFeat ::
         PRIORITY.map (fun q => JQuery.topQ q pProj tFeat),
        Except.ok (get_issues exWorld pPar pProj tFeat, m)) := by
  refine ⟨(c5_zero_results_fatal w5a pPar pProj tFeat).1 (by decide),
    (c5_zero_results_fatal w5b pPar pProj tFeat).2.1 (by decide) [] tUndefined tiersTail
      (by decide) ?_ (by decide),
    (c5_zero_results_fatal exWorld pPar pProj tFeat).2.2 (by decide) ?_⟩
  · intro q hq
    simp at hq
  · decide

/-- C7: a successful `get_highest_ranked_issues` over the fixed tier list
returns a map keyed by exactly the six tiers Undefined, Minor, Normal, Major,
Critical, Blocker (in order), binding each tier T to the single
highest-ranked ticket of the given project and issue type whose priority is
at or below T — the head of the rank-ascending `priority<=T` query. -/
theorem c7_top_ticket_per_tier (world : List Issue) (proj ty : String)
    (qs : List String) (m : List (String × Issue))
    (h : get_highest_ranked_issues world proj ty PRIORITY = (qs, Except.ok m)) :
    m.map Prod.fst = PRIORITY ∧
    ∀ p ∈ PRIORITY, lookupTier m p = topAtOrBelow world proj ty p :=
  ⟨(ghi_ok_char world proj ty PRIORITY qs m h).2.1,
    (ghi_ok_char world proj ty PRIORITY qs m h).2.2⟩

/-- C7 witness: on the worked-example state the anchor map is keyed by the
six tiers and binds Major to the top ticket whose priority is at or below
Major. -/
theorem c7_top_ticket_per_tier_witness :
    m0full.map Prod.fst = PRIORITY ∧
    lookupTier m0full tMajor = topAtOrBelow exWorld pProj tFeat tMajor :=
  ⟨(c7_top_ticket_per_tier exWorld pProj tFeat PRIORITY m0full rfl).1,
    (c7_top_ticket_per_tier exWorld pProj tFeat PRIORITY m0full rfl).2 tMajor (by decide)⟩

/-- The tier map after any run prefix: each tier is bound to the most
recently processed child of that tier, or to its original binding when no
child of that tier has been processed. -/
theorem c6aux_map (d : Bool) (cs : List Issue) :
    ∀ (m mF : List (String × Issue)),
    (runChildren d m cs).tierMap = Except.ok mF →
    ∀ T, lookupTier mF T = Option.or (lastWithTier T cs) (lookupTier m T) := by
  induction cs with
  | nil =>
    intro m mF h T
    simp only [runChildren] at h
    cases h
    simp [lastWithTier, Option.or]
  | cons c cs ih =>
    intro m mF h T
    cases hl : lookupTier m c.priority with
    | none => simp [runChildren, check_rank, hl] at h
    | some top =>
      have h2 : (runChildren d (setTier m c.priority c) cs).tierMap = Except.ok mF := by
        simpa [runChildren, check_rank, hl] using h
      have ihm := ih (setTier m c.priority c) mF h2 T
      cases hlast : lastWithTier T cs with
      | some dd =>
        rw [hlast] at ihm
        simp [lastWithTier, hlast, Option.or, ihm]
      | none =>
        rw [hlast] at ihm
        simp only [Option.or] at ihm
        by_cases hT : c.priority = T
        · subst hT
          rw [ihm, lookupTier_set_self m c.priority c top hl]
          simp [lastWithTier, hlast, Option.or]
        · have hTne : T ≠ c.priority := fun hh => hT hh.symm
          rw [ihm, lookupTier_set_ne m c.priority T c hTne]
          simp [lastWithTier, hlast, hT, Option.or]

/-- Each processed child's rank call targets exactly the ticket the tier map
bound to the child's tier just before that child's own update. -/
theorem c6aux_calls (cs : List Issue) :
    ∀ (m mF : List (String × Issue)),
    (runChildren false m cs).tierMap = Except.ok mF →
    ∀ (i : Nat) (c : Issue), cs[i]? = some c →
      ∃ mi t, (runChildren false m (cs.take i)).tierMap = Except.ok mi ∧
        lookupTier mi c.priority = some t ∧
        (runChildren false m cs).calls[i]? = some (c.key, t.key) := by
  induction cs with
  | nil =>
    intro m mF _ i c hc
    simp at hc
  | cons a cs ih =>
    intro m mF h i c hc
    cases hl : lookupTier m a.priority with
    | none => simp [runChildren, check_rank, hl] at h
    | some top =>
      have h2 : (runChildren false (setTier m a.priority a) cs).tierMap = Except.ok mF := by
        simpa [runChildren, check_rank, hl] using h
      cases i with
      | zero =>
        simp only [List.getElem?_cons_zero, Option.some.injEq] at hc
        subst hc
        refine ⟨m, top, by simp [runChildren], hl, ?_⟩
        simp [runChildren, check_rank, hl]
      | succ i =>
        simp only [List.getElem?_cons_succ] at hc
        obtain ⟨mi, t, h3, h4, h5⟩ := ih (setTier m a.priority a) mF h2 i c hc
        refine ⟨mi, t, ?_, h4, ?_⟩
        · rw [List.take_succ_cons]
          simpa [runChildren, check_rank, hl] using h3
        · simpa [runChildren, check_rank, hl] using h5

/-- C6: after processing any prefix of the children, the tier map binds each
tier T to the most recently processed child of priority T, or to the original
pre-run anchor for T when no child of tier T has been processed yet; and each
child's rank move targets the map entry read before the child's own update. -/
theorem c6_tier_map_invariant (d : Bool) (m : List (String × Issue)) (cs : List Issue)
    (mF : List (String × Issue)) (h : (runChildren d m cs).tierMap = Except.ok mF) :
    (∀ T, lookupTier mF T = Option.or (lastWithTier T cs) (lookupTier m T)) ∧
    (d = false → ∀ (i : Nat) (c : Issue), cs[i]? = some c →
      ∃ mi t, (runChildren false m (cs.take i)).tierMap = Except.ok mi ∧
        lookupTier mi c.priority = some t ∧
        (runChildren false m cs).calls[i]? = some (c.key, t.key)) :=
  ⟨c6aux_map d cs m mF h, fun hd => c6aux_calls cs m mF (hd ▸ h)⟩

/-- C6 witness: on the worked example the final map's Blocker entry is the
last Blocker child, and the third child's move targets exactly the entry the
map held for Blocker after the first two children. -/
theorem c6_tier_map_invariant_witness :
    lookupTier mFex tBlocker =
      Option.or (lastWithTier tBlocker [iF1, iF2, iF3]) (lookupTier m0ex tBlocker) ∧
    ∃ mi t, (runChildren false m0ex (List.take 2 [iF1, iF2, iF3])).tierMap = Except.ok mi ∧
      lookupTier mi iF3.priority = some t ∧
      (runChildren false m0ex [iF1, iF2, iF3]).calls[2]? = some (iF3.key, t.key) :=
  ⟨(c6_tier_map_invariant false m0ex [iF1, iF2, iF3] mFex rfl).1 tBlocker,
    (c6_tier_map_invariant false m0ex [iF1, iF2, iF3] mFex rfl).2 rfl 2 iF3 rfl⟩

/-- C9: the anchor map built by `get_highest_ranked_issues` has exactly the
six fixed tier names as keys, and that key set is invariant over the run; so
processing a child whose priority name is not one of the six tiers raises a
key-lookup error inside `check_rank` before any move is issued or logged —
the run ends with exactly the earlier children's log lines and rank calls. -/
theorem c9_unknown_priority (world : List Issue) (proj ty : String)
    (qs : List String) (m0 : List (String × Issue)) (d : Bool) (c : Issue)
    (xs ys : List Issue) (mi : List (String × Issue))
    (hg : get_highest_ranked_issues world proj ty PRIORITY = (qs, Except.ok m0))
    (hc : c.priority ∉ PRIORITY)
    (hx : (runChildren d m0 xs).tierMap = Except.ok mi) :
    check_rank d c mi = Except.error c.priority ∧
    runChildren d m0 (xs ++ c :: ys) =
      ⟨Except.error c.priority, (runChildren d m0 xs).logs, (runChildren d m0 xs).calls⟩ := by
  have hkeys0 : m0.map Prod.fst = PRIORITY :=
    (ghi_ok_char world proj ty PRIORITY qs m0 hg).2.1
  have hkeys : mi.map Prod.fst = PRIORITY := by
    rw [runChildren_keys d xs m0 mi hx, hkeys0]
  have hnone : lookupTier mi c.priority = none := by
    apply lookupTier_eq_none
    rw [hkeys]
    exact hc
  have hcr : check_rank d c mi = Except.error c.priority := by
    simp [check_rank, hnone]
  refine ⟨hcr, ?_⟩
  rw [runChildren_append d xs (c :: ys) m0 mi hx]
  simp [runChildren, hcr]

/-- C9 witness: after processing F1 on the full worked-example anchor map, a
child with priority "Bizarre" fails its key lookup, and the run ends with
only F1's log line and rank call. -/
theorem c9_unknown_priority_witness :
    check_rank false cBad m1full = Except.error cBad.priority ∧
    runChildren false m0full ([iF1] ++ cBad :: []) =
      ⟨Except.error cBad.priority, (runChildren false m0full [iF1]).logs,
        (runChildren false m0full [iF1]).calls⟩ :=
  c9_unknown_priority exWorld pProj tFeat PRIORITY m0full false cBad [iF1] [] m1full
    rfl (by decide) rfl

end Prioritize
